import Mathlib

/-!
Verification of the application-document-processor core: a shallow Lean
embedding of the job scheduling and cross-source reconciliation engine
(src/services/job_queue_service.py, src/services/database_service.py,
src/agents/data_validation_agent.py, src/agents/data_formatting_agent.py,
src/orchestrator.py), followed by theorems settling the frozen claims.

Modelling conventions: Python floats are modelled as rationals, Python
dicts carrying fixed keys as structures, and database rows as lists of
structures.  Similarity scoring via difflib.SequenceMatcher (Python
standard library, outside this repository) is kept abstract as a function
parameter.  Regex character classes from the source are modelled with
their ASCII meaning.
-/

/-- One extracted candidate for a field, as grouped by
DataValidationAgent._group_extracted_data_by_field: the keys of an
extracted-field JSON object that the validation path reads. -/
structure Candidate where
  field_value : String
  confidence : ℚ
  document_id : Option String := none
deriving DecidableEq, Repr

/-- Per-field validation configuration, as read by the validation
agent from ValidationConfig.get_field_config with the defaults that the
call sites apply. -/
structure FieldConfig where
  validation_type : String := "text"
  tolerance : ℚ := 4/5
  similarity_threshold : ℚ := 1/2
  critical_fields : List String := []
  important_fields : List String := []
deriving DecidableEq, Repr

/-- The claim-relevant keys of the result dict produced by
DataValidationAgent._compare_values and _validate_single_field
(validation_notes, application_id and document metadata are carried along
by the source but never branched on; they are omitted). -/
structure ValidationOutcome where
  validation_status : String
  mismatch_type : Option String
  mismatch_severity : Option String
  discrepancy_percentage : Option ℚ
  flag_for_review : Bool
  confidence_score : ℚ := 0
deriving DecidableEq, Repr

/-- The claim-relevant keys of a stored ValidationResult row as consumed
by DataFormattingAgent._determine_best_value. -/
structure ValidationRecord where
  validation_status : String
  document_value : Option String := none
  confidence_score : ℚ := 0
  mismatch_severity : Option String := none
deriving DecidableEq, Repr

/-- DataFormattingAgent._determine_best_value (src/agents/
data_formatting_agent.py lines 205-251): chooses the golden-record value,
data source and confidence from a validation record.  Python truthiness
of doc_value (None or empty string is falsy) is modelled explicitly. -/
def determine_best_value (app_value : String) (vr : ValidationRecord) :
    Option String × String × ℚ :=
  if vr.validation_status = "validated" then
    match vr.document_value with
    | some d => if d ≠ "" then (some d, "document_extraction", vr.confidence_score)
                else (some app_value, "application_form", 9/10)
    | none => (some app_value, "application_form", 9/10)
  else if vr.validation_status = "mismatch" then
    if vr.mismatch_severity = some "critical" then
      (some app_value, "application_form", 7/10)
    else if vr.mismatch_severity = some "high" then
      (some app_value, "application_form", 6/10)
    else if vr.confidence_score > 8/10 then
      (vr.document_value, "document_extraction", vr.confidence_score)
    else
      (some app_value, "application_form", 1/2)
  else if vr.validation_status = "missing" then
    (some app_value, "application_form", 8/10)
  else
    (some app_value, "application_form", 1/2)

/-- DataValidationAgent._get_missing_severity (src/agents/
data_validation_agent.py lines 691-699). -/
def get_missing_severity (field_name : String) (cfg : FieldConfig) : String :=
  if field_name ∈ cfg.critical_fields then "critical"
  else if field_name ∈ cfg.important_fields then "high"
  else "medium"

/-- The result dict built by DataValidationAgent._validate_single_field
when a field has no extracted candidates (lines 224-241). -/
def missing_field_result (field_name : String) (cfg : FieldConfig) :
    ValidationOutcome :=
  { validation_status := "missing"
    mismatch_type := some "missing_document"
    mismatch_severity := some (get_missing_severity field_name cfg)
    discrepancy_percentage := none
    flag_for_review := true
    confidence_score := 0 }

/-- The character class kept by the regex substitution
re.sub of the pattern that deletes everything but digits, dots and
minus signs, used by _normalize_value, _parse_currency and
_parse_number (ASCII reading of the digit class). -/
def keepNumChar (c : Char) : Bool := c.isDigit || c = '.' || c = '-'

/-- Python str.strip with no argument: remove leading and trailing
whitespace (ASCII whitespace reading). -/
def isPySpace (c : Char) : Bool :=
  c = ' ' || c = '\t' || c = '\n' || c = '\r' || c = '\x0b' || c = '\x0c'

/-- Python str.strip over a character list. -/
def pyStrip (cs : List Char) : List Char :=
  ((cs.dropWhile isPySpace).reverse.dropWhile isPySpace).reverse

/-- Digit-string to natural number. -/
def natOfDigits (cs : List Char) : ℕ :=
  cs.foldl (fun n c => 10 * n + (c.toNat - 48)) 0

/-- Python float() applied to an unsigned string drawn from the
character set kept by keepNumChar: digits with at most one dot and at
least one digit; the exact-arithmetic value is returned as a rational. -/
def pyFloatUnsigned (cs : List Char) : Option ℚ :=
  let intPart := cs.takeWhile Char.isDigit
  let rest := cs.dropWhile Char.isDigit
  match rest with
  | [] => if intPart.isEmpty then none else some (natOfDigits intPart)
  | '.' :: frac =>
      if frac.all Char.isDigit ∧ ¬ (intPart.isEmpty ∧ frac.isEmpty) then
        some ((natOfDigits intPart : ℚ) + (natOfDigits frac : ℚ) / 10 ^ frac.length)
      else none
  | _ => none

/-- Python float() on a string drawn from the kept character set:
an optional leading minus sign then an unsigned float literal. -/
def pyFloat (cs : List Char) : Option ℚ :=
  match cs with
  | '-' :: rest => (pyFloatUnsigned rest).map Neg.neg
  | _ => pyFloatUnsigned cs

/-- DataValidationAgent._parse_currency (lines 653-664): empty input is
unparsable; otherwise strip everything but digits, dots and minus signs
and apply float(), with an empty cleaned string unparsable. -/
def parse_currency (value : String) : Option ℚ :=
  if value = "" then none
  else
    let cleaned := value.data.filter keepNumChar
    if cleaned.isEmpty then none else pyFloat cleaned

/-- DataValidationAgent._parse_number (lines 666-677): same cleaning and
parsing as _parse_currency. -/
def parse_number (value : String) : Option ℚ :=
  if value = "" then none
  else
    let cleaned := value.data.filter keepNumChar
    if cleaned.isEmpty then none else pyFloat cleaned

/-- DataValidationAgent._get_currency_mismatch_severity (lines 712-721). -/
def get_currency_mismatch_severity (percentage_diff : ℚ) : String :=
  if percentage_diff > 1/5 then "critical"
  else if percentage_diff > 1/10 then "high"
  else if percentage_diff > 1/20 then "medium"
  else "low"

/-- DataValidationAgent._get_number_mismatch_severity (lines 723-732). -/
def get_number_mismatch_severity (percentage_diff : ℚ) : String :=
  if percentage_diff > 3/20 then "critical"
  else if percentage_diff > 2/25 then "high"
  else if percentage_diff > 3/100 then "medium"
  else "low"

/-- DataValidationAgent._get_text_mismatch_severity (lines 701-710). -/
def get_text_mismatch_severity (similarity : ℚ) : String :=
  if similarity < 3/10 then "critical"
  else if similarity < 3/5 then "high"
  else if similarity < 4/5 then "medium"
  else "low"

/-- DataValidationAgent._validate_currency (lines 488-547). -/
def validate_currency (app_value doc_value : String) (tolerance : ℚ) :
    ValidationOutcome :=
  match parse_currency app_value, parse_currency doc_value with
  | some app_amount, some doc_amount =>
    if app_amount = 0 ∧ doc_amount = 0 then
      { validation_status := "validated", mismatch_type := none
        mismatch_severity := none, discrepancy_percentage := some 0
        flag_for_review := false }
    else
      let max_amount := max |app_amount| |doc_amount|
      let percentage_diff := |app_amount - doc_amount| / max_amount
      if percentage_diff ≤ tolerance then
        { validation_status := "validated", mismatch_type := none
          mismatch_severity := none
          discrepancy_percentage := some (percentage_diff * 100)
          flag_for_review := false }
      else
        let severity := get_currency_mismatch_severity percentage_diff
        { validation_status := "mismatch", mismatch_type := some "value_difference"
          mismatch_severity := some severity
          discrepancy_percentage := some (percentage_diff * 100)
          flag_for_review := severity = "critical" ∨ severity = "high" }
  | _, _ =>
      { validation_status := "mismatch", mismatch_type := some "format_difference"
        mismatch_severity := some "medium", discrepancy_percentage := none
        flag_for_review := true }

/-- DataValidationAgent._validate_number (lines 582-651).  The source
checks exact equality and a zero maximum before dividing. -/
def validate_number (app_value doc_value : String) (tolerance : ℚ) :
    ValidationOutcome :=
  match parse_number app_value, parse_number doc_value with
  | some app_num, some doc_num =>
    if app_num = doc_num then
      { validation_status := "validated", mismatch_type := none
        mismatch_severity := none, discrepancy_percentage := some 0
        flag_for_review := false }
    else
      let max_num := max |app_num| |doc_num|
      if max_num = 0 then
        { validation_status := "validated", mismatch_type := none
          mismatch_severity := none, discrepancy_percentage := some 0
          flag_for_review := false }
      else
        let percentage_diff := |app_num - doc_num| / max_num
        if percentage_diff ≤ tolerance then
          { validation_status := "validated", mismatch_type := none
            mismatch_severity := none
            discrepancy_percentage := some (percentage_diff * 100)
            flag_for_review := false }
        else
          let severity := get_number_mismatch_severity percentage_diff
          { validation_status := "mismatch", mismatch_type := some "value_difference"
            mismatch_severity := some severity
            discrepancy_percentage := some (percentage_diff * 100)
            flag_for_review := severity = "critical" ∨ severity = "high" }
  | _, _ =>
      { validation_status := "mismatch", mismatch_type := some "format_difference"
        mismatch_severity := some "medium", discrepancy_percentage := none
        flag_for_review := true }

/-- Consume exactly n digit characters, returning them and the rest. -/
def takeExactDigits : ℕ → List Char → Option (List Char × List Char)
  | 0, cs => some ([], cs)
  | _ + 1, [] => none
  | n + 1, c :: cs =>
      if c.isDigit then (takeExactDigits n cs).map (fun p => (c :: p.1, p.2))
      else none

/-- Consume one fixed character. -/
def expectChar (ch : Char) : List Char → Option (List Char)
  | [] => none
  | c :: cs => if c = ch then some cs else none

/-- A one-or-two-digit regex group with greedy backtracking: try two
digits first, then one, before handing the remainder to the
continuation. -/
def greedy12 (cs : List Char) (k : List Char → List Char → Option α) :
    Option α :=
  (match takeExactDigits 2 cs with
   | some (g, rest) => k g rest
   | none => none) <|>
  (match takeExactDigits 1 cs with
   | some (g, rest) => k g rest
   | none => none)

/-- Match the first date pattern of _normalize_date, the slash form with
one-or-two-digit day and month groups and a four-digit year group, at the
start of the input; returns the three captured groups. -/
def matchSlashPatternAt (cs : List Char) :
    Option (List Char × List Char × List Char) :=
  greedy12 cs fun g1 r1 =>
    match expectChar '/' r1 with
    | none => none
    | some r2 =>
      greedy12 r2 fun g2 r3 =>
        match expectChar '/' r3 with
        | none => none
        | some r4 =>
          match takeExactDigits 4 r4 with
          | some (g3, _) => some (g1, g2, g3)
          | none => none

/-- Match the second date pattern of _normalize_date, the ISO dash form
with a four-digit leading group, at the start of the input. -/
def matchIsoPatternAt (cs : List Char) :
    Option (List Char × List Char × List Char) :=
  match takeExactDigits 4 cs with
  | none => none
  | some (g1, r1) =>
    match expectChar '-' r1 with
    | none => none
    | some r2 =>
      greedy12 r2 fun g2 r3 =>
        match expectChar '-' r3 with
        | none => none
        | some r4 =>
          greedy12 r4 fun g3 _ => some (g1, g2, g3)

/-- Match the third date pattern of _normalize_date, the dash form with
one-or-two-digit leading groups and a four-digit year group, at the start
of the input. -/
def matchDashPatternAt (cs : List Char) :
    Option (List Char × List Char × List Char) :=
  greedy12 cs fun g1 r1 =>
    match expectChar '-' r1 with
    | none => none
    | some r2 =>
      greedy12 r2 fun g2 r3 =>
        match expectChar '-' r3 with
        | none => none
        | some r4 =>
          match takeExactDigits 4 r4 with
          | some (g3, _) => some (g1, g2, g3)
          | none => none

/-- re.search: try the pattern matcher at every start position from the
left and return the first success. -/
def searchFrom (matchAt : List Char → Option α) : List Char → Option α
  | [] => matchAt []
  | c :: cs => matchAt (c :: cs) <|> searchFrom matchAt cs

/-- Python str.zfill(2) on a captured group. -/
def zfill2 (g : List Char) : List Char :=
  if g.length ≥ 2 then g else List.replicate (2 - g.length) '0' ++ g

/-- The f-string emission step of _normalize_date: pick the ISO order by
the first group's length, else day-first when the first group's numeric
value exceeds 12, else month-first; month and day are zero-padded. -/
def emitDate (g1 g2 g3 : List Char) : List Char :=
  if g1.length = 4 then g1 ++ '-' :: zfill2 g2 ++ '-' :: zfill2 g3
  else if natOfDigits g1 > 12 then g3 ++ '-' :: zfill2 g2 ++ '-' :: zfill2 g1
  else g3 ++ '-' :: zfill2 g1 ++ '-' :: zfill2 g2

/-- DataValidationAgent._normalize_date (lines 423-450): search the three
date patterns in order and re-emit the groups in ISO order, returning the
input unchanged when no pattern matches. -/
def normalize_date (date_str : String) : String :=
  match searchFrom matchSlashPatternAt date_str.data with
  | some (g1, g2, g3) => ⟨emitDate g1 g2 g3⟩
  | none =>
    match searchFrom matchIsoPatternAt date_str.data with
    | some (g1, g2, g3) => ⟨emitDate g1 g2 g3⟩
    | none =>
      match searchFrom matchDashPatternAt date_str.data with
      | some (g1, g2, g3) => ⟨emitDate g1 g2 g3⟩
      | none => date_str

/-- The regex substitution collapsing every whitespace run to a single
space, used by the text branch of _normalize_value. -/
def collapseSpaces (cs : List Char) : List Char :=
  cs.foldr
    (fun c acc =>
      if isPySpace c then
        match acc with
        | ' ' :: _ => acc
        | _ => ' ' :: acc
      else c :: acc) []

/-- DataValidationAgent._normalize_value (lines 396-421): empty values
normalize to the empty string; otherwise strip outer whitespace and apply
the per-type canonicalization. -/
def normalize_value (value : String) (value_type : String) : String :=
  if value = "" then ""
  else
    let normalized := pyStrip value.data
    if value_type = "currency" then ⟨normalized.filter keepNumChar⟩
    else if value_type = "date" then normalize_date ⟨normalized⟩
    else if value_type = "number" then ⟨normalized.filter keepNumChar⟩
    else ⟨(collapseSpaces (normalized.map Char.toLower))⟩


/-- DataValidationAgent._validate_text (lines 452-486), parameterized by
the SequenceMatcher similarity function. -/
def validate_text (sim : String → String → ℚ) (app_value doc_value : String)
    (tolerance : ℚ) : ValidationOutcome :=
  let similarity := sim app_value doc_value
  if similarity ≥ tolerance then
    { validation_status := "validated", mismatch_type := none
      mismatch_severity := none
      discrepancy_percentage := some ((1 - similarity) * 100)
      flag_for_review := false }
  else
    let severity := get_text_mismatch_severity similarity
    { validation_status := "mismatch", mismatch_type := some "value_difference"
      mismatch_severity := some severity
      discrepancy_percentage := some ((1 - similarity) * 100)
      flag_for_review := severity = "critical" ∨ severity = "high" }

/-- DataValidationAgent._validate_date (lines 549-580): exact equality of
already-normalized date strings. -/
def validate_date (app_value doc_value : String) : ValidationOutcome :=
  if app_value = doc_value then
    { validation_status := "validated", mismatch_type := none
      mismatch_severity := none, discrepancy_percentage := some 0
      flag_for_review := false }
  else
    { validation_status := "mismatch", mismatch_type := some "value_difference"
      mismatch_severity := some "high", discrepancy_percentage := some 100
      flag_for_review := true }

/-- The result dict of the except handler of _compare_values
(lines 385-394); its notes string carries the exception text, which the
claims never inspect. -/
def comparison_error_result : ValidationOutcome :=
  { validation_status := "mismatch", mismatch_type := some "comparison_error"
    mismatch_severity := some "critical", discrepancy_percentage := none
    flag_for_review := true }

/-- The result dict of the except handler of _validate_single_field
(lines 294-309). -/
def validation_error_result : ValidationOutcome :=
  { validation_status := "mismatch", mismatch_type := some "validation_error"
    mismatch_severity := some "critical", discrepancy_percentage := none
    flag_for_review := true }

/-- DataValidationAgent._compare_values (lines 357-394): normalize both
values then dispatch on the configured validation type.  The try/except
of the source is modelled by an injected fault: a some fault stands for
an internal exception raised inside the body, which the handler turns
into comparison_error_result instead of propagating. -/
def compare_values (sim : String → String → ℚ) (fault : Option String)
    (app_value doc_value : String) (cfg : FieldConfig) : ValidationOutcome :=
  match fault with
  | some _ => comparison_error_result
  | none =>
    let vt := cfg.validation_type
    let app_normalized := normalize_value app_value vt
    let doc_normalized := normalize_value doc_value vt
    if vt = "text" then validate_text sim app_normalized doc_normalized cfg.tolerance
    else if vt = "currency" then validate_currency app_normalized doc_normalized cfg.tolerance
    else if vt = "date" then validate_date app_normalized doc_normalized
    else if vt = "number" then validate_number app_normalized doc_normalized cfg.tolerance
    else validate_text sim app_normalized doc_normalized cfg.tolerance

/-- The except handler of _validate_single_field as a runner: an ok
outcome is passed through, an internal exception becomes
validation_error_result and is never propagated. -/
def run_validate_single_field (r : Except String ValidationOutcome) :
    ValidationOutcome :=
  match r with
  | Except.ok v => v
  | Except.error _ => validation_error_result

/-- A scored candidate as built inside _find_best_document_match
(lines 328-340). -/
structure ScoredCandidate where
  data : Candidate
  similarity_score : ℚ
  combined_score : ℚ
deriving DecidableEq, Repr

/-- The scoring step of _find_best_document_match: weighted combination
of similarity to the form value and extraction confidence. -/
def score_candidate (sim : String → String → ℚ) (app_value : String)
    (d : Candidate) : ScoredCandidate :=
  { data := d
    similarity_score := sim app_value d.field_value
    combined_score := sim app_value d.field_value * (7/10) + d.confidence * (3/10) }

/-- The descending combined-score order used by the Python list.sort
with reverse=True; Python sort is stable, as is insertion sort with this
non-strict relation. -/
def scoreOrder (a b : ScoredCandidate) : Prop :=
  b.combined_score ≤ a.combined_score

instance : DecidableRel scoreOrder := fun a b =>
  inferInstanceAs (Decidable (b.combined_score ≤ a.combined_score))

/-- DataValidationAgent._find_best_document_match (lines 311-355): one
candidate is used directly; several candidates are scored, stably sorted
by descending combined score, and the best is accepted only when its
similarity reaches the configured threshold. -/
def find_best_document_match (sim : String → String → ℚ) (app_value : String)
    (document_data : List Candidate) (cfg : FieldConfig) : Option Candidate :=
  match document_data with
  | [] => none
  | [d] => some d
  | _ :: _ :: _ =>
    let scored := document_data.map (score_candidate sim app_value)
    let sorted := scored.insertionSort scoreOrder
    match sorted.head? with
    | none => none
    | some best =>
        if best.similarity_score ≥ cfg.similarity_threshold then some best.data
        else none

/-- The result dict built by _validate_single_field when no good match is
found (lines 246-263). -/
def no_match_result : ValidationOutcome :=
  { validation_status := "mismatch", mismatch_type := some "value_difference"
    mismatch_severity := some "high", discrepancy_percentage := some 100
    flag_for_review := true }

/-- The pure core of DataValidationAgent._validate_single_field
(lines 211-290): missing-candidate branch, candidate selection, then
comparison with the confidence of the chosen candidate attached. -/
def validate_single_field (sim : String → String → ℚ)
    (field_name app_value : String) (document_data : List Candidate)
    (cfg : FieldConfig) : ValidationOutcome :=
  if document_data.isEmpty then missing_field_result field_name cfg
  else
    match find_best_document_match sim app_value document_data cfg with
    | none => no_match_result
    | some best =>
        let r := compare_values sim none app_value best.field_value cfg
        { r with confidence_score := best.confidence }

/-- A row of the document_jobs table (src/models/document_job.py), with
timestamps as abstract naturals. -/
structure DocumentJob where
  id : ℕ
  application_id : String := ""
  job_type : String := "extraction"
  status : String
  priority : ℕ := 5
  retry_count : ℕ := 0
  max_retries : ℕ := 3
  error_message : Option String := none
  created_at : ℕ := 0
deriving DecidableEq, Repr

/-- DatabaseService.update_job_status (src/services/database_service.py
lines 307-320): set the status of the row with the given id, and its
error_message only when result data is supplied; no other column — in
particular retry_count — is touched. -/
def update_job_status (table : List DocumentJob) (job_id : ℕ) (status : String)
    (result_data : Option String := none) : List DocumentJob :=
  table.map fun j =>
    if j.id = job_id then
      { j with status := status, error_message := result_data <|> j.error_message }
    else j

/-- The ORDER BY priority ASC, created_at ASC key of
DatabaseService.get_pending_jobs as a relation on job rows. -/
def jobOrder (a b : DocumentJob) : Prop :=
  a.priority < b.priority ∨ (a.priority = b.priority ∧ a.created_at ≤ b.created_at)

instance : DecidableRel jobOrder := fun a b =>
  inferInstanceAs (Decidable (a.priority < b.priority ∨ (a.priority = b.priority ∧ a.created_at ≤ b.created_at)))

instance : IsTotal DocumentJob jobOrder where
  total a b := by
    rcases Nat.lt_trichotomy a.priority b.priority with h | h | h
    · exact Or.inl (Or.inl h)
    · rcases Nat.le_total a.created_at b.created_at with h2 | h2
      · exact Or.inl (Or.inr ⟨h, h2⟩)
      · exact Or.inr (Or.inr ⟨h.symm, h2⟩)
    · exact Or.inr (Or.inl h)

instance : IsTrans DocumentJob jobOrder where
  trans a b c hab hbc := by
    rcases hab with h1 | ⟨e1, l1⟩
    · rcases hbc with h2 | ⟨e2, _⟩
      · exact Or.inl (h1.trans h2)
      · exact Or.inl (e2 ▸ h1)
    · rcases hbc with h2 | ⟨e2, l2⟩
      · exact Or.inl (e1 ▸ h2)
      · exact Or.inr ⟨e1.trans e2, l1.trans l2⟩

/-- DatabaseService.get_pending_jobs (lines 297-305): the rows with
status pending, ordered by priority ascending then created_at ascending,
limited to the given batch size (default 10). -/
def get_pending_jobs (table : List DocumentJob) (limit : ℕ := 10) :
    List DocumentJob :=
  (((table.filter fun (j : DocumentJob) => j.status == "pending").insertionSort jobOrder).take limit)

/-- JobQueueService._process_job_queue takes the first ten fetched jobs
(line 104) as the batch of one poll cycle. -/
def poll_batch (table : List DocumentJob) : List DocumentJob :=
  (get_pending_jobs table).take 10

/-- JobQueueService._process_single_job (lines 118-170) acting on the
job table: claim by an unconditional status update to processing, then
map the handler outcome to completed or failed with the error recorded. -/
def process_single_job (table : List DocumentJob) (job : DocumentJob)
    (outcome : Bool × Option String) : List DocumentJob :=
  let t1 := update_job_status table job.id "processing"
  if outcome.1 then update_job_status t1 job.id "completed"
  else update_job_status t1 job.id "failed" outcome.2

/-- JobQueueService.retry_failed_jobs (lines 255-277): fetch jobs via
get_pending_jobs, keep those whose status is failed (optionally for one
application), and set each back to pending while its retry_count is
below max_retries, counting the resets. -/
def retry_failed_jobs (table : List DocumentJob)
    (application_id : Option String := none) : ℕ × List DocumentJob :=
  let fetched := get_pending_jobs table
  let failed1 := fetched.filter fun (j : DocumentJob) => j.status == "failed"
  let failed_jobs := match application_id with
    | some app => failed1.filter fun (j : DocumentJob) => j.application_id == app
    | none => failed1
  failed_jobs.foldl
    (fun acc j =>
      if j.retry_count < j.max_retries then
        (acc.1 + 1, update_job_status acc.2 j.id "pending")
      else acc)
    (0, table)

/-- The dict inserted into document_jobs by
DatabaseService.create_document_job (lines 323-336). -/
structure JobData where
  application_id : String
  document_id : Option String
  job_type : String
  status : String
  priority : ℕ
deriving DecidableEq, Repr

/-- The formatting-job side effect of
DataValidationAgent.validate_application_data (lines 138-147): a
formatting job with priority 2 is enqueued exactly when the validation
completion percentage reaches 80. -/
def validation_formatting_job (application_id : String) (completion_pct : ℚ) :
    Option JobData :=
  if completion_pct ≥ 80 then
    some { application_id := application_id, document_id := none
           job_type := "formatting", status := "pending", priority := 2 }
  else none

/-- JobQueueService.add_extraction_job (lines 172-189) with its default
priority of 5. -/
def add_extraction_job (application_id document_id : String)
    (priority : ℕ := 5) : JobData :=
  { application_id := application_id, document_id := some document_id
    job_type := "extraction", status := "pending", priority := priority }

/-- DocumentProcessingOrchestrator._get_document_priority
(src/orchestrator.py lines 217-230). -/
def get_document_priority (document_type : String) : ℕ :=
  if document_type = "mortgage_application" then 1
  else if document_type = "t4_form" then 2
  else if document_type = "employment_letter" then 2
  else if document_type = "bank_statement" then 3
  else if document_type = "pay_stub" then 3
  else if document_type = "credit_report" then 4
  else if document_type = "property_assessment" then 4
  else if document_type = "insurance_document" then 5
  else if document_type = "generic_document" then 6
  else 5

/-- Claim C2: golden-record source choice is a pure function of the
validation record: validated with a document value present yields the
document value, source and confidence; validated without one yields the
application value with confidence 0.9; a mismatch of critical or high
severity always yields the application value with confidence 0.7 or 0.6
regardless of document confidence; a lower-severity mismatch yields the
document value and its confidence when that confidence exceeds 0.8 and
otherwise the application value with confidence 0.5; missing yields the
application value with confidence 0.8.  Determinism is immediate since
determine_best_value is a function of exactly these inputs. -/
theorem C2_determine_best_value_cases (app_value : String) (vr : ValidationRecord) :
    (vr.validation_status = "validated" → ∀ d, vr.document_value = some d → d ≠ "" →
      determine_best_value app_value vr = (some d, "document_extraction", vr.confidence_score)) ∧
    (vr.validation_status = "validated" → (vr.document_value = none ∨ vr.document_value = some "") →
      determine_best_value app_value vr = (some app_value, "application_form", 9/10)) ∧
    (vr.validation_status = "mismatch" → vr.mismatch_severity = some "critical" →
      determine_best_value app_value vr = (some app_value, "application_form", 7/10)) ∧
    (vr.validation_status = "mismatch" → vr.mismatch_severity = some "high" →
      determine_best_value app_value vr = (some app_value, "application_form", 6/10)) ∧
    (vr.validation_status = "mismatch" → vr.mismatch_severity ≠ some "critical" →
      vr.mismatch_severity ≠ some "high" → vr.confidence_score > 8/10 →
      determine_best_value app_value vr = (vr.document_value, "document_extraction", vr.confidence_score)) ∧
    (vr.validation_status = "mismatch" → vr.mismatch_severity ≠ some "critical" →
      vr.mismatch_severity ≠ some "high" → ¬ (vr.confidence_score > 8/10) →
      determine_best_value app_value vr = (some app_value, "application_form", 1/2)) ∧
    (vr.validation_status = "missing" →
      determine_best_value app_value vr = (some app_value, "application_form", 8/10)) := by
  refine ⟨?_, ?_, ?_, ?_, ?_, ?_, ?_⟩
  · intro hs d hd hne
    simp [determine_best_value, hs, hd, hne]
  · intro hs hd
    rcases hd with hd | hd <;> simp [determine_best_value, hs, hd]
  · intro hs hsev
    simp [determine_best_value, hs, hsev]
  · intro hs hsev
    simp [determine_best_value, hs, hsev]
  · intro hs h1 h2 hconf
    simp [determine_best_value, hs, h1, h2, hconf]
  · intro hs h1 h2 hconf
    simp [determine_best_value, hs, h1, h2, hconf]
  · intro hs
    simp [determine_best_value, hs]

/-- Witness for C2 at a concrete critical mismatch: the application form
value is chosen with confidence 0.7 even though the document confidence
is 0.9. -/
theorem C2_determine_best_value_cases_witness :
    determine_best_value "50000"
      { validation_status := "mismatch", document_value := some "60000"
        confidence_score := 9/10, mismatch_severity := some "critical" } =
      (some "50000", "application_form", 7/10) :=
  (C2_determine_best_value_cases "50000"
    { validation_status := "mismatch", document_value := some "60000"
      confidence_score := 9/10, mismatch_severity := some "critical" }).2.2.1 rfl rfl

/-- Claim C10: a field with zero extracted candidates yields a missing
validation result whose flag_for_review is always true, also when the
missing severity is only medium because the field is configured neither
critical nor important. -/
theorem C10_missing_always_flagged (sim : String → String → ℚ)
    (field_name app_value : String) (document_data : List Candidate)
    (cfg : FieldConfig) (h : document_data = []) :
    (validate_single_field sim field_name app_value document_data cfg).validation_status = "missing" ∧
    (validate_single_field sim field_name app_value document_data cfg).flag_for_review = true ∧
    (field_name ∉ cfg.critical_fields → field_name ∉ cfg.important_fields →
      (validate_single_field sim field_name app_value document_data cfg).mismatch_severity = some "medium" ∧
      (validate_single_field sim field_name app_value document_data cfg).flag_for_review = true) := by
  subst h
  refine ⟨rfl, rfl, fun h1 h2 => ⟨?_, rfl⟩⟩
  simp [validate_single_field, missing_field_result, get_missing_severity, h1, h2]

/-- Witness for C10: a concrete field configured neither critical nor
important still has its missing result flagged for review at medium
severity. -/
theorem C10_missing_always_flagged_witness :
    (validate_single_field (fun _ _ => 0) "CITY" "Toronto" [] {}).flag_for_review = true ∧
    (validate_single_field (fun _ _ => 0) "CITY" "Toronto" [] {}).mismatch_severity = some "medium" :=
  ⟨(C10_missing_always_flagged (fun _ _ => 0) "CITY" "Toronto" [] {} rfl).2.1,
   ((C10_missing_always_flagged (fun _ _ => 0) "CITY" "Toronto" [] {} rfl).2.2
      (by decide) (by decide)).1⟩

/-- Counterexample to claim C4 as stated: an exception caught by the
handler of _compare_values itself is reported with mismatch_type
comparison_error, not validation_error. -/
theorem C4_counterexample_comparison_error :
    (compare_values (fun _ _ => 0) (some "boom") "a" "b" {}).mismatch_type = some "comparison_error" ∧
    (some "comparison_error" : Option String) ≠ some "validation_error" :=
  ⟨rfl, by decide⟩

/-- Claim C4 amended: every internal exception during a field comparison
is caught and turned into a total result with validation_status mismatch
and severity critical, flagged for review and never propagated (the
handlers are total functions into ValidationOutcome); the mismatch_type
is validation_error for exceptions reaching the handler of
_validate_single_field, but comparison_error for exceptions caught by
the handler inside _compare_values. -/
theorem C4_exception_caught_critical (sim : String → String → ℚ)
    (e : String) (app_value doc_value : String) (cfg : FieldConfig) :
    (compare_values sim (some e) app_value doc_value cfg = comparison_error_result ∧
     comparison_error_result.validation_status = "mismatch" ∧
     comparison_error_result.mismatch_severity = some "critical" ∧
     comparison_error_result.mismatch_type = some "comparison_error" ∧
     comparison_error_result.flag_for_review = true) ∧
    (run_validate_single_field (Except.error e) = validation_error_result ∧
     validation_error_result.validation_status = "mismatch" ∧
     validation_error_result.mismatch_severity = some "critical" ∧
     validation_error_result.mismatch_type = some "validation_error" ∧
     validation_error_result.flag_for_review = true) :=
  ⟨⟨rfl, rfl, rfl, rfl, rfl⟩, ⟨rfl, rfl, rfl, rfl, rfl⟩⟩

/-- Counterexample to claim C6 as stated: the enqueued formatting job has
priority 2, while an extraction job for a bank statement has priority 3,
so the formatting priority is not numerically higher than the extraction
priority. -/
theorem C6_counterexample_formatting_priority :
    (validation_formatting_job "APP-1" 100) =
      some { application_id := "APP-1", document_id := none
             job_type := "formatting", status := "pending", priority := 2 } ∧
    (add_extraction_job "APP-1" "doc-1" (get_document_priority "bank_statement")).priority = 3 ∧
    ¬ ((2 : ℕ) > 3) := by
  refine ⟨?_, rfl, by decide⟩
  simp [validation_formatting_job]
  norm_num

/-- Claim C6 amended: a formatting job is enqueued exactly when the
validation completion percentage reaches 80, and it carries priority 2;
extraction jobs carry the document priority, which ranges over 1..6 with
default 5, so the formatting priority is numerically higher (less
urgent) only than mortgage-application extraction jobs (priority 1) and
is otherwise equal or more urgent than extraction. -/
theorem C6_formatting_enqueue_and_priority (application_id : String) (pct : ℚ) :
    ((validation_formatting_job application_id pct).isSome ↔ 80 ≤ pct) ∧
    (∀ j, validation_formatting_job application_id pct = some j →
      j.job_type = "formatting" ∧ j.priority = 2) ∧
    get_document_priority "mortgage_application" = 1 ∧
    (add_extraction_job application_id "doc").priority = 5 ∧
    (∀ dt, 1 ≤ get_document_priority dt ∧ get_document_priority dt ≤ 6) ∧
    (∀ dt, get_document_priority dt < 2 ↔ dt = "mortgage_application") := by
  refine ⟨?_, ?_, rfl, rfl, ?_, ?_⟩
  · unfold validation_formatting_job
    split
    · simpa [ge_iff_le] using by assumption
    · simp only [Option.isSome_none, Bool.false_eq_true, false_iff]
      intro h
      exact (by assumption : ¬ pct ≥ 80) h
  · intro j hj
    unfold validation_formatting_job at hj
    split at hj
    · cases hj
      exact ⟨rfl, rfl⟩
    · cases hj
  · intro dt
    unfold get_document_priority
    split_ifs <;> omega
  · intro dt
    unfold get_document_priority
    split_ifs <;> simp_all

/-- Witness for C6: at completion 100 percent a formatting job is
enqueued. -/
theorem C6_formatting_enqueue_and_priority_witness :
    (validation_formatting_job "APP-1" 100).isSome :=
  ((C6_formatting_enqueue_and_priority "APP-1" 100).1).mpr (by norm_num)

/-- Claim C1 is contradicted by the code: after a job fails its first
attempt, retry_failed_jobs fetches candidates with get_pending_jobs,
which returns only rows whose status is pending, then filters them for
status failed; the list is therefore empty and the failed job is never
reset to pending, although its retry_count 0 is below max_retries 3.
Moreover no code path ever increments retry_count, so the documented
count 0 to 1 to 2 cannot occur: this theorem evaluates the code at the
failing input. -/
theorem C1_code_bug_retry_unreachable :
    (process_single_job
        [{ id := 1, application_id := "APP-1", job_type := "extraction"
           status := "pending", priority := 5, retry_count := 0
           max_retries := 3, error_message := none, created_at := 0 }]
        { id := 1, application_id := "APP-1", job_type := "extraction"
          status := "pending", priority := 5, retry_count := 0
          max_retries := 3, error_message := none, created_at := 0 }
        (false, some "boom")) =
      [{ id := 1, application_id := "APP-1", job_type := "extraction"
         status := "failed", priority := 5, retry_count := 0
         max_retries := 3, error_message := some "boom", created_at := 0 }] ∧
    retry_failed_jobs
      [{ id := 1, application_id := "APP-1", job_type := "extraction"
         status := "failed", priority := 5, retry_count := 0
         max_retries := 3, error_message := some "boom", created_at := 0 }] =
      (0,
       [{ id := 1, application_id := "APP-1", job_type := "extraction"
          status := "failed", priority := 5, retry_count := 0
          max_retries := 3, error_message := some "boom", created_at := 0 }]) ∧
    (0 : ℕ) < 3 := by
  refine ⟨?_, ?_, by decide⟩
  · rfl
  · rfl

/-- Claim C8: each poll cycle fetches at most ten pending jobs, and the
fetched batch is ordered by priority ascending and, within equal
priority, by created_at ascending; every fetched row has status
pending. -/
theorem C8_poll_batch_bounded_and_sorted (table : List DocumentJob) :
    poll_batch table = get_pending_jobs table ∧
    (get_pending_jobs table).length ≤ 10 ∧
    List.Sorted jobOrder (get_pending_jobs table) ∧
    (get_pending_jobs table).all (fun j => j.status == "pending") = true := by
  have hlen : (get_pending_jobs table).length ≤ 10 := by
    unfold get_pending_jobs
    exact List.length_take_le 10 _
  refine ⟨?_, hlen, ?_, ?_⟩
  · unfold poll_batch
    exact List.take_of_length_le hlen
  · unfold get_pending_jobs
    exact List.Pairwise.sublist (List.take_sublist 10 _)
      (List.sorted_insertionSort jobOrder _)
  · rw [List.all_eq_true]
    intro j hj
    unfold get_pending_jobs at hj
    have hj2 := List.mem_of_mem_take hj
    have hj3 := (List.perm_insertionSort jobOrder _).mem_iff.mp hj2
    exact (List.mem_filter.mp hj3).2

/-- Claim C3: for every pair of currency values, an unparsable side
yields mismatch with type format_difference and severity medium; two
zero amounts yield validated with discrepancy 0; otherwise, with
percentage_diff defined as the absolute difference over the larger
absolute amount, the result is validated exactly when percentage_diff is
at most the tolerance, and otherwise a value_difference mismatch whose
severity is critical above 20 percent, high above 10, medium above 5 and
low otherwise. -/
theorem C3_validate_currency_spec (a b : String) (tol : ℚ) :
    ((parse_currency a = none ∨ parse_currency b = none) →
      validate_currency a b tol =
        { validation_status := "mismatch", mismatch_type := some "format_difference"
          mismatch_severity := some "medium", discrepancy_percentage := none
          flag_for_review := true }) ∧
    (∀ x y, parse_currency a = some x → parse_currency b = some y →
      (x = 0 ∧ y = 0 →
        validate_currency a b tol =
          { validation_status := "validated", mismatch_type := none
            mismatch_severity := none, discrepancy_percentage := some 0
            flag_for_review := false }) ∧
      (¬ (x = 0 ∧ y = 0) →
        ((validate_currency a b tol).validation_status = "validated" ↔
          |x - y| / max |x| |y| ≤ tol) ∧
        (validate_currency a b tol).discrepancy_percentage =
          some (|x - y| / max |x| |y| * 100) ∧
        (|x - y| / max |x| |y| > tol →
          (validate_currency a b tol).validation_status = "mismatch" ∧
          (validate_currency a b tol).mismatch_type = some "value_difference" ∧
          (validate_currency a b tol).mismatch_severity = some
            (if |x - y| / max |x| |y| > 1/5 then "critical"
             else if |x - y| / max |x| |y| > 1/10 then "high"
             else if |x - y| / max |x| |y| > 1/20 then "medium"
             else "low")))) := by
  constructor
  · intro h
    unfold validate_currency
    rcases h with h | h
    · rw [h]
    · rw [h]
      cases parse_currency a <;> rfl
  · intro x y hx hy
    unfold validate_currency
    rw [hx, hy]
    dsimp only
    constructor
    · rintro ⟨hx0, hy0⟩
      rw [if_pos ⟨hx0, hy0⟩]
    · intro hnz
      rw [if_neg hnz]
      by_cases hle : |x - y| / max |x| |y| ≤ tol
      · rw [if_pos (by simpa using hle)]
        refine ⟨?_, rfl, fun hgt => absurd hle (by simpa using not_le.mpr hgt)⟩
        simpa using hle
      · rw [if_neg (by simpa using hle)]
        refine ⟨?_, rfl, fun _ => ⟨rfl, rfl, rfl⟩⟩
        constructor
        · intro hcontra
          dsimp only at hcontra
          exact absurd hcontra (by decide)
        · intro hc
          exact absurd hc (by simpa using hle)

/-- Witness for C3 at concrete inputs 100 and 110 dollars with
tolerance 5 percent: a 1/11 relative difference is a value_difference
mismatch of medium severity. -/
theorem C3_validate_currency_spec_witness :
    (validate_currency "100" "$110" (1/20)).validation_status = "mismatch" ∧
    (validate_currency "100" "$110" (1/20)).mismatch_severity = some "medium" := by
  have h := ((C3_validate_currency_spec "100" "$110" (1/20)).2 100 110
      (by decide) (by decide)).2 (by norm_num)
  have h3 := h.2.2 (by norm_num)
  refine ⟨h3.1, ?_⟩
  rw [h3.2.2]
  norm_num

/-- Specification-side selector: the first element of the list attaining
the maximal key, written as a fold, to be compared with the sort-based
selection of the source. -/
def firstMaxBy (key : α → ℚ) : List α → Option α
  | [] => none
  | a :: t =>
    match firstMaxBy key t with
    | none => some a
    | some m => if key m ≤ key a then some a else some m

/-- When the fold finds no maximum the list is empty. -/
theorem firstMaxBy_eq_none (key : α → ℚ) (l : List α)
    (h : firstMaxBy key l = none) : l = [] := by
  cases l with
  | nil => rfl
  | cons a t =>
    simp only [firstMaxBy] at h
    cases ht : firstMaxBy key t with
    | none =>
      rw [ht] at h
      cases h
    | some m2 =>
      rw [ht] at h
      dsimp only at h
      by_cases hk : key m2 ≤ key a
      · rw [if_pos hk] at h
        cases h
      · rw [if_neg hk] at h
        cases h

/-- The head of an insertion sort by descending key is the first maximal
element of the input: stable descending sorting and the left fold pick
the same winner. -/
theorem head_insertionSort_eq_firstMaxBy (key : α → ℚ) (l : List α) :
    (l.insertionSort (fun x y => key y ≤ key x)).head? = firstMaxBy key l := by
  induction l with
  | nil => rfl
  | cons a t ih =>
    simp only [List.insertionSort, firstMaxBy]
    cases hs : List.insertionSort (fun x y => key y ≤ key x) t with
    | nil =>
      rw [hs] at ih
      rw [← ih]
      rfl
    | cons b t2 =>
      rw [hs] at ih
      simp only [List.head?] at ih
      rw [← ih]
      by_cases h : key b ≤ key a
      · simp [List.orderedInsert, List.head?, h]
      · simp [List.orderedInsert, List.head?, h]

/-- The first maximal element belongs to the list. -/
theorem firstMaxBy_mem (key : α → ℚ) (l : List α) (m : α)
    (h : firstMaxBy key l = some m) : m ∈ l := by
  induction l generalizing m with
  | nil => cases h
  | cons a t ih =>
    simp only [firstMaxBy] at h
    cases ht : firstMaxBy key t with
    | none =>
      rw [ht] at h
      dsimp only at h
      rw [Option.some_inj] at h
      subst h
      exact List.mem_cons_self _ _
    | some m2 =>
      rw [ht] at h
      dsimp only at h
      by_cases hk : key m2 ≤ key a
      · rw [if_pos hk, Option.some_inj] at h
        subst h
        exact List.mem_cons_self _ _
      · rw [if_neg hk, Option.some_inj] at h
        subst h
        exact List.mem_cons_of_mem _ (ih _ ht)

/-- The first maximal element has a maximal key. -/
theorem firstMaxBy_le (key : α → ℚ) (l : List α) (m : α)
    (h : firstMaxBy key l = some m) : ∀ c ∈ l, key c ≤ key m := by
  induction l generalizing m with
  | nil => cases h
  | cons a t ih =>
    intro c hc
    simp only [firstMaxBy] at h
    cases ht : firstMaxBy key t with
    | none =>
      rw [ht] at h
      dsimp only at h
      rw [Option.some_inj] at h
      subst h
      have := firstMaxBy_eq_none key t ht
      subst this
      rcases List.mem_cons.mp hc with hc | hc
      · exact hc ▸ le_refl _
      · cases hc
    | some m2 =>
      rw [ht] at h
      dsimp only at h
      by_cases hk : key m2 ≤ key a
      · rw [if_pos hk, Option.some_inj] at h
        subst h
        rcases List.mem_cons.mp hc with hc | hc
        · exact hc ▸ le_refl _
        · exact (ih m2 ht c hc).trans hk
      · rw [if_neg hk, Option.some_inj] at h
        subst h
        rcases List.mem_cons.mp hc with hc | hc
        · exact hc ▸ le_of_not_le hk
        · exact ih m2 ht c hc

/-- The first maximal element is first: everything before it in input
order has a strictly smaller key. -/
theorem firstMaxBy_first (key : α → ℚ) (l : List α) (m : α)
    (h : firstMaxBy key l = some m) :
    ∃ l1 l2, l = l1 ++ m :: l2 ∧ ∀ c ∈ l1, key c < key m := by
  induction l generalizing m with
  | nil => cases h
  | cons a t ih =>
    simp only [firstMaxBy] at h
    cases ht : firstMaxBy key t with
    | none =>
      rw [ht] at h
      dsimp only at h
      rw [Option.some_inj] at h
      subst h
      exact ⟨[], t, rfl, by intro c hc; cases hc⟩
    | some m2 =>
      rw [ht] at h
      dsimp only at h
      by_cases hk : key m2 ≤ key a
      · rw [if_pos hk, Option.some_inj] at h
        subst h
        exact ⟨[], t, rfl, by intro c hc; cases hc⟩
      · rw [if_neg hk, Option.some_inj] at h
        subst h
        obtain ⟨l1, l2, heq, hlt⟩ := ih m2 ht
        refine ⟨a :: l1, l2, by rw [heq]; rfl, ?_⟩
        intro c hc
        rcases List.mem_cons.mp hc with hc | hc
        · exact hc ▸ lt_of_not_le hk
        · exact hlt c hc

/-- The stable descending sort of the source, specialized to scored
candidates: its head is the first input candidate attaining the maximal
combined score. -/
theorem head_sort_scored (l : List ScoredCandidate) :
    (l.insertionSort scoreOrder).head? =
      firstMaxBy (fun s => s.combined_score) l :=
  head_insertionSort_eq_firstMaxBy (fun s => s.combined_score) l

/-- Claim C5: with more than one extracted candidate, each candidate is
scored as 0.7 times its similarity to the application value plus 0.3
times its confidence; the selected winner is the maximal-scoring
candidate with ties broken in favour of the first maximal element in
input order; it is accepted exactly when its similarity reaches the
configured threshold, and a rejection makes the field a value_difference
mismatch of high severity with 100 percent discrepancy. -/
theorem C5_candidate_selection (sim : String → String → ℚ)
    (field_name app_value : String) (cfg : FieldConfig) (l : List Candidate)
    (h2 : 2 ≤ l.length) :
    ∃ best,
      firstMaxBy (fun s => s.combined_score) (l.map (score_candidate sim app_value)) = some best ∧
      best.similarity_score = sim app_value best.data.field_value ∧
      best.combined_score =
        sim app_value best.data.field_value * (7/10) + best.data.confidence * (3/10) ∧
      best.data ∈ l ∧
      (∀ c ∈ l, (score_candidate sim app_value c).combined_score ≤ best.combined_score) ∧
      (∃ l1 l2, l.map (score_candidate sim app_value) = l1 ++ best :: l2 ∧
        ∀ s ∈ l1, s.combined_score < best.combined_score) ∧
      (find_best_document_match sim app_value l cfg =
        if best.similarity_score ≥ cfg.similarity_threshold then some best.data else none) ∧
      (¬ best.similarity_score ≥ cfg.similarity_threshold →
        validate_single_field sim field_name app_value l cfg = no_match_result ∧
        no_match_result =
          { validation_status := "mismatch", mismatch_type := some "value_difference"
            mismatch_severity := some "high", discrepancy_percentage := some 100
            flag_for_review := true, confidence_score := 0 }) := by
  match l, h2 with
  | a :: b :: rest, _ =>
    set scored := (a :: b :: rest).map (score_candidate sim app_value) with hscored
    obtain ⟨best, hbest⟩ : ∃ best, firstMaxBy (fun s => s.combined_score) scored = some best := by
      cases hb : firstMaxBy (fun s => s.combined_score) scored with
      | none =>
        have := firstMaxBy_eq_none (fun s => s.combined_score) scored hb
        rw [hscored] at this
        cases this
      | some x => exact ⟨x, rfl⟩
    have hmem := firstMaxBy_mem _ _ _ hbest
    rw [hscored] at hmem
    obtain ⟨c0, hc0, hceq⟩ := List.mem_map.mp hmem
    have hfind : find_best_document_match sim app_value (a :: b :: rest) cfg =
        if best.similarity_score ≥ cfg.similarity_threshold then some best.data else none := by
      show (match a :: b :: rest with
        | [] => none
        | [d] => some d
        | _ :: _ :: _ =>
          let scored2 := (a :: b :: rest).map (score_candidate sim app_value)
          let sorted := scored2.insertionSort scoreOrder
          match sorted.head? with
          | none => none
          | some bst =>
              if bst.similarity_score ≥ cfg.similarity_threshold then some bst.data
              else none) =
        if best.similarity_score ≥ cfg.similarity_threshold then some best.data else none
      dsimp only
      rw [head_sort_scored, ← hscored, hbest]
    refine ⟨best, hbest, ?_, ?_, ?_, ?_, ?_, hfind, ?_⟩
    · rw [← hceq]
      rfl
    · rw [← hceq]
      rfl
    · rw [← hceq]
      exact hc0
    · intro c hc
      exact firstMaxBy_le _ _ _ hbest _ (by rw [hscored]; exact List.mem_map_of_mem _ hc)
    · obtain ⟨l1, l2, heq, hlt⟩ := firstMaxBy_first _ _ _ hbest
      exact ⟨l1, l2, heq, hlt⟩
    · intro hrej
      constructor
      · unfold validate_single_field
        rw [if_neg (by simp)]
        rw [hfind, if_neg hrej]
      · rfl

/-- Witness for C5 at the two-candidate scenario: similarity 0.9 with
confidence 0.6 scores 0.81 and beats similarity 0.4 with confidence
0.95 scoring 0.565, and the winner passes the default 0.5 threshold. -/
theorem C5_candidate_selection_witness :
    find_best_document_match (fun _ v => if v = "c1" then 9/10 else 2/5) "addr"
      [⟨"c1", 3/5, none⟩, ⟨"c2", 19/20, none⟩] {} = some ⟨"c1", 3/5, none⟩ := by
  obtain ⟨best, hfm, _, _, _, _, _, hfind, _⟩ :=
    C5_candidate_selection (fun _ v => if v = "c1" then 9/10 else 2/5)
      "APPLICANT_ADDRESS" "addr" {}
      [⟨"c1", 3/5, none⟩, ⟨"c2", 19/20, none⟩] (by decide)
  have hconc : firstMaxBy (fun s => s.combined_score)
      (([⟨"c1", 3/5, none⟩, ⟨"c2", 19/20, none⟩] : List Candidate).map
        (score_candidate (fun _ v => if v = "c1" then 9/10 else 2/5) "addr")) =
      some ⟨⟨"c1", 3/5, none⟩, 9/10, 9/10 * (7/10) + 3/5 * (3/10)⟩ := by
    norm_num [List.map, score_candidate, firstMaxBy,
      if_neg (show ¬ ("c2" : String) = "c1" by decide),
      if_pos (rfl : ("c1" : String) = "c1")]
  rw [hconc] at hfm
  have hbest := (Option.some_inj.mp hfm).symm
  rw [hfind, hbest]
  rw [if_pos (by norm_num)]

/-- Soundness of exact digit consumption: the group has the requested
length, consists of digits, and is a prefix of the input. -/
theorem takeExactDigits_spec :
    ∀ (n : ℕ) (cs g r : List Char), takeExactDigits n cs = some (g, r) →
      g.length = n ∧ (∀ c ∈ g, c.isDigit = true) ∧ cs = g ++ r := by
  intro n
  induction n with
  | zero =>
    intro cs g r h
    simp only [takeExactDigits, Option.some_inj, Prod.mk.injEq] at h
    obtain ⟨hg, hr⟩ := h
    subst hg
    subst hr
    refine ⟨rfl, ?_, rfl⟩
    intro c hc
    cases hc
  | succ k ih =>
    intro cs g r h
    cases cs with
    | nil => cases h
    | cons c cs2 =>
      simp only [takeExactDigits] at h
      by_cases hd : c.isDigit
      · rw [if_pos hd] at h
        cases hk : takeExactDigits k cs2 with
        | none =>
          rw [hk] at h
          cases h
        | some p =>
          obtain ⟨gp, rp⟩ := p
          rw [hk] at h
          simp only [Option.map_some', Option.some_inj, Prod.mk.injEq] at h
          obtain ⟨hg, hr⟩ := h
          subst hg
          subst hr
          obtain ⟨hlen, hdig, happ⟩ := ih cs2 gp rp hk
          refine ⟨by simp [hlen], ?_, by rw [List.cons_append, ← happ]⟩
          intro x hx
          rcases List.mem_cons.mp hx with hx | hx
          · exact hx ▸ hd
          · exact hdig x hx
      · rw [if_neg hd] at h
        cases h

/-- Completeness of exact digit consumption on a digit group followed by
anything. -/
theorem takeExactDigits_append :
    ∀ (g r : List Char), (∀ c ∈ g, c.isDigit = true) →
      takeExactDigits g.length (g ++ r) = some (g, r) := by
  intro g
  induction g with
  | nil => intro r _; rfl
  | cons c g2 ih =>
    intro r hdig
    have ihr := ih r (fun x hx => hdig x (List.mem_cons_of_mem _ hx))
    show takeExactDigits (g2.length + 1) (c :: (g2 ++ r)) = some (c :: g2, r)
    simp only [takeExactDigits]
    rw [if_pos (hdig c (List.mem_cons_self _ _)), ihr]
    rfl

/-- expectChar succeeds exactly on the expected character. -/
theorem expectChar_spec (ch : Char) (cs r : List Char)
    (h : expectChar ch cs = some r) : cs = ch :: r := by
  cases cs with
  | nil => cases h
  | cons c cs2 =>
    simp only [expectChar] at h
    by_cases he : c = ch
    · rw [if_pos he] at h
      cases h
      rw [he]
    · rw [if_neg he] at h
      cases h

/-- Soundness of the greedy one-or-two-digit group matcher. -/
theorem greedy12_spec {α : Type} (cs : List Char) (k : List Char → List Char → Option α)
    (v : α) (h : greedy12 cs k = some v) :
    ∃ g rest, (g.length = 1 ∨ g.length = 2) ∧ (∀ c ∈ g, c.isDigit = true) ∧
      cs = g ++ rest ∧ k g rest = some v := by
  unfold greedy12 at h
  cases h2 : takeExactDigits 2 cs with
  | some p =>
    obtain ⟨ga, ra⟩ := p
    rw [h2] at h
    dsimp only at h
    obtain ⟨hlen, hdig, happ⟩ := takeExactDigits_spec 2 cs ga ra h2
    cases hk : k ga ra with
    | some w =>
      rw [hk] at h
      rw [Option.some_orElse] at h
      cases h
      exact ⟨ga, ra, Or.inr hlen, hdig, happ, hk⟩
    | none =>
      rw [hk] at h
      rw [Option.none_orElse] at h
      cases h1 : takeExactDigits 1 cs with
      | none =>
        rw [h1] at h
        cases h
      | some q =>
        obtain ⟨gb, rb⟩ := q
        rw [h1] at h
        dsimp only at h
        obtain ⟨hlen1, hdig1, happ1⟩ := takeExactDigits_spec 1 cs gb rb h1
        exact ⟨gb, rb, Or.inl hlen1, hdig1, happ1, h⟩
  | none =>
    rw [h2] at h
    dsimp only at h
    rw [Option.none_orElse] at h
    cases h1 : takeExactDigits 1 cs with
    | none =>
      rw [h1] at h
      cases h
    | some q =>
      obtain ⟨gb, rb⟩ := q
      rw [h1] at h
      dsimp only at h
      obtain ⟨hlen1, hdig1, happ1⟩ := takeExactDigits_spec 1 cs gb rb h1
      exact ⟨gb, rb, Or.inl hlen1, hdig1, happ1, h⟩

/-- Soundness of the slash date pattern: the groups are digit strings of
the shapes the regex allows and decompose the matched suffix. -/
theorem matchSlashPatternAt_spec (cs g1 g2 g3 : List Char)
    (h : matchSlashPatternAt cs = some (g1, g2, g3)) :
    (g1.length = 1 ∨ g1.length = 2) ∧ (∀ c ∈ g1, c.isDigit = true) ∧
    (g2.length = 1 ∨ g2.length = 2) ∧ (∀ c ∈ g2, c.isDigit = true) ∧
    g3.length = 4 ∧ (∀ c ∈ g3, c.isDigit = true) ∧
    ∃ r, cs = g1 ++ '/' :: g2 ++ '/' :: g3 ++ r := by
  unfold matchSlashPatternAt at h
  obtain ⟨ga, ra, hlen1, hdig1, happ1, hk1⟩ := greedy12_spec cs _ _ h
  try dsimp only at hk1
  cases he1 : expectChar '/' ra with
  | none => rw [he1] at hk1; cases hk1
  | some r2 =>
    rw [he1] at hk1
    try dsimp only at hk1
    have hra := expectChar_spec '/' ra r2 he1
    obtain ⟨gb, rb, hlen2, hdig2, happ2, hk2⟩ := greedy12_spec r2 _ _ hk1
    try dsimp only at hk2
    cases he2 : expectChar '/' rb with
    | none => rw [he2] at hk2; cases hk2
    | some r4 =>
      rw [he2] at hk2
      try dsimp only at hk2
      have hrb := expectChar_spec '/' rb r4 he2
      cases ht : takeExactDigits 4 r4 with
      | none => rw [ht] at hk2; cases hk2
      | some p =>
        obtain ⟨gc, rc⟩ := p
        rw [ht] at hk2
        try dsimp only at hk2
        obtain ⟨hlen3, hdig3, happ3⟩ := takeExactDigits_spec 4 r4 gc rc ht
        rw [Option.some_inj, Prod.mk.injEq, Prod.mk.injEq] at hk2
        obtain ⟨hg1, hg2, hg3⟩ := hk2
        subst hg1
        subst hg2
        subst hg3
        refine ⟨hlen1, hdig1, hlen2, hdig2, hlen3, hdig3, rc, ?_⟩
        rw [happ1, hra, happ2, hrb, happ3]
        simp [List.append_assoc]

/-- Soundness of the ISO date pattern: the leading group has exactly
four digits and the groups decompose the matched suffix. -/
theorem matchIsoPatternAt_spec (cs g1 g2 g3 : List Char)
    (h : matchIsoPatternAt cs = some (g1, g2, g3)) :
    g1.length = 4 ∧ (∀ c ∈ g1, c.isDigit = true) ∧
    (g2.length = 1 ∨ g2.length = 2) ∧ (∀ c ∈ g2, c.isDigit = true) ∧
    (g3.length = 1 ∨ g3.length = 2) ∧ (∀ c ∈ g3, c.isDigit = true) ∧
    ∃ r, cs = g1 ++ '-' :: g2 ++ '-' :: g3 ++ r := by
  unfold matchIsoPatternAt at h
  cases ht : takeExactDigits 4 cs with
  | none => rw [ht] at h; cases h
  | some p =>
    obtain ⟨ga, ra⟩ := p
    rw [ht] at h
    try dsimp only at h
    obtain ⟨hlen1, hdig1, happ1⟩ := takeExactDigits_spec 4 cs ga ra ht
    cases he1 : expectChar '-' ra with
    | none => rw [he1] at h; cases h
    | some r2 =>
      rw [he1] at h
      try dsimp only at h
      have hra := expectChar_spec '-' ra r2 he1
      obtain ⟨gb, rb, hlen2, hdig2, happ2, hk2⟩ := greedy12_spec r2 _ _ h
      try dsimp only at hk2
      cases he2 : expectChar '-' rb with
      | none => rw [he2] at hk2; cases hk2
      | some r4 =>
        rw [he2] at hk2
        try dsimp only at hk2
        have hrb := expectChar_spec '-' rb r4 he2
        obtain ⟨gc, rc, hlen3, hdig3, happ3, hk3⟩ := greedy12_spec r4 _ _ hk2
        try dsimp only at hk3
        rw [Option.some_inj, Prod.mk.injEq, Prod.mk.injEq] at hk3
        obtain ⟨hg1, hg2, hg3⟩ := hk3
        subst hg1
        subst hg2
        subst hg3
        refine ⟨hlen1, hdig1, hlen2, hdig2, hlen3, hdig3, rc, ?_⟩
        rw [happ1, hra, happ2, hrb, happ3]
        simp [List.append_assoc]

/-- Soundness of the dash date pattern with a four-digit year group. -/
theorem matchDashPatternAt_spec (cs g1 g2 g3 : List Char)
    (h : matchDashPatternAt cs = some (g1, g2, g3)) :
    (g1.length = 1 ∨ g1.length = 2) ∧ (∀ c ∈ g1, c.isDigit = true) ∧
    (g2.length = 1 ∨ g2.length = 2) ∧ (∀ c ∈ g2, c.isDigit = true) ∧
    g3.length = 4 ∧ (∀ c ∈ g3, c.isDigit = true) ∧
    ∃ r, cs = g1 ++ '-' :: g2 ++ '-' :: g3 ++ r := by
  unfold matchDashPatternAt at h
  obtain ⟨ga, ra, hlen1, hdig1, happ1, hk1⟩ := greedy12_spec cs _ _ h
  try dsimp only at hk1
  cases he1 : expectChar '-' ra with
  | none => rw [he1] at hk1; cases hk1
  | some r2 =>
    rw [he1] at hk1
    try dsimp only at hk1
    have hra := expectChar_spec '-' ra r2 he1
    obtain ⟨gb, rb, hlen2, hdig2, happ2, hk2⟩ := greedy12_spec r2 _ _ hk1
    try dsimp only at hk2
    cases he2 : expectChar '-' rb with
    | none => rw [he2] at hk2; cases hk2
    | some r4 =>
      rw [he2] at hk2
      try dsimp only at hk2
      have hrb := expectChar_spec '-' rb r4 he2
      cases ht : takeExactDigits 4 r4 with
      | none => rw [ht] at hk2; cases hk2
      | some p =>
        obtain ⟨gc, rc⟩ := p
        rw [ht] at hk2
        try dsimp only at hk2
        obtain ⟨hlen3, hdig3, happ3⟩ := takeExactDigits_spec 4 r4 gc rc ht
        rw [Option.some_inj, Prod.mk.injEq, Prod.mk.injEq] at hk2
        obtain ⟨hg1, hg2, hg3⟩ := hk2
        subst hg1
        subst hg2
        subst hg3
        refine ⟨hlen1, hdig1, hlen2, hdig2, hlen3, hdig3, rc, ?_⟩
        rw [happ1, hra, happ2, hrb, happ3]
        simp [List.append_assoc]

/-- A successful search means the pattern matched some suffix of the
input. -/
theorem searchFrom_spec {α : Type} (matchAt : List Char → Option α)
    (cs : List Char) (v : α) (h : searchFrom matchAt cs = some v) :
    ∃ pre suf, cs = pre ++ suf ∧ matchAt suf = some v := by
  induction cs with
  | nil => exact ⟨[], [], rfl, h⟩
  | cons c cs2 ih =>
    unfold searchFrom at h
    cases hm : matchAt (c :: cs2) with
    | some w =>
      rw [hm, Option.some_orElse] at h
      cases h
      exact ⟨[], c :: cs2, rfl, hm⟩
    | none =>
      rw [hm, Option.none_orElse] at h
      obtain ⟨pre, suf, happ, hsuf⟩ := ih h
      exact ⟨c :: pre, suf, by rw [happ]; rfl, hsuf⟩

/-- The YYYY-MM-DD shape: four digits, dash, two digits, dash, two
digits. -/
def IsIsoDate (s : String) : Prop :=
  ∃ y m d : List Char,
    s.data = y ++ '-' :: m ++ '-' :: d ∧
    y.length = 4 ∧ m.length = 2 ∧ d.length = 2 ∧
    (∀ c ∈ y, c.isDigit = true) ∧ (∀ c ∈ m, c.isDigit = true) ∧
    (∀ c ∈ d, c.isDigit = true)

/-- zfill(2) pads a one-or-two-digit group to exactly two characters. -/
theorem zfill2_length (g : List Char) (h : g.length = 1 ∨ g.length = 2) :
    (zfill2 g).length = 2 := by
  unfold zfill2
  rcases h with h | h
  · rw [if_neg (by omega)]
    simp [h]
  · rw [if_pos (by omega)]
    exact h

/-- zfill(2) preserves digit-ness, padding with the zero digit. -/
theorem zfill2_digits (g : List Char) (h : ∀ c ∈ g, c.isDigit = true) :
    ∀ c ∈ zfill2 g, c.isDigit = true := by
  unfold zfill2
  split
  · exact h
  · intro c hc
    rcases List.mem_append.mp hc with hc | hc
    · rw [List.eq_of_mem_replicate hc]
      decide
    · exact h c hc

/-- Emission for a four-digit leading group produces the ISO shape. -/
theorem isIsoDate_emit_iso (g1 g2 g3 : List Char)
    (h1 : g1.length = 4) (hd1 : ∀ c ∈ g1, c.isDigit = true)
    (h2 : g2.length = 1 ∨ g2.length = 2) (hd2 : ∀ c ∈ g2, c.isDigit = true)
    (h3 : g3.length = 1 ∨ g3.length = 2) (hd3 : ∀ c ∈ g3, c.isDigit = true) :
    IsIsoDate ⟨emitDate g1 g2 g3⟩ := by
  unfold emitDate
  rw [if_pos h1]
  exact ⟨g1, zfill2 g2, zfill2 g3, rfl, h1, zfill2_length g2 h2, zfill2_length g3 h3,
    hd1, zfill2_digits g2 hd2, zfill2_digits g3 hd3⟩

/-- Emission for a short leading group and a four-digit year group
produces the ISO shape in either disambiguation branch. -/
theorem isIsoDate_emit_val (g1 g2 g3 : List Char)
    (h1 : g1.length = 1 ∨ g1.length = 2) (hd1 : ∀ c ∈ g1, c.isDigit = true)
    (h2 : g2.length = 1 ∨ g2.length = 2) (hd2 : ∀ c ∈ g2, c.isDigit = true)
    (h3 : g3.length = 4) (hd3 : ∀ c ∈ g3, c.isDigit = true) :
    IsIsoDate ⟨emitDate g1 g2 g3⟩ := by
  unfold emitDate
  rw [if_neg (by omega)]
  by_cases hv : natOfDigits g1 > 12
  · rw [if_pos hv]
    exact ⟨g3, zfill2 g2, zfill2 g1, rfl, h3, zfill2_length g2 h2, zfill2_length g1 h1,
      hd3, zfill2_digits g2 hd2, zfill2_digits g1 hd1⟩
  · rw [if_neg hv]
    exact ⟨g3, zfill2 g1, zfill2 g2, rfl, h3, zfill2_length g1 h1, zfill2_length g2 h2,
      hd3, zfill2_digits g1 hd1, zfill2_digits g2 hd2⟩

/-- Claim C7: date normalization searches the slash pattern, the ISO
dash pattern and the short dash pattern in that order; on a match it
disambiguates by the first captured group — length four means already
ISO, a numeric value above twelve means day-first, otherwise month-first
— and always emits a YYYY-MM-DD string with zero-padded month and day;
an input matching no pattern is returned unchanged, and the function is
total, so no error is ever raised. -/
theorem C7_normalize_date_cases (s : String) :
    (searchFrom matchSlashPatternAt s.data = none →
     searchFrom matchIsoPatternAt s.data = none →
     searchFrom matchDashPatternAt s.data = none →
     normalize_date s = s) ∧
    (∀ g1 g2 g3, searchFrom matchSlashPatternAt s.data = some (g1, g2, g3) →
      g1.length ≠ 4 ∧
      normalize_date s =
        (if natOfDigits g1 > 12
         then (⟨g3 ++ '-' :: zfill2 g2 ++ '-' :: zfill2 g1⟩ : String)
         else ⟨g3 ++ '-' :: zfill2 g1 ++ '-' :: zfill2 g2⟩) ∧
      IsIsoDate (normalize_date s)) ∧
    (∀ g1 g2 g3, searchFrom matchSlashPatternAt s.data = none →
      searchFrom matchIsoPatternAt s.data = some (g1, g2, g3) →
      g1.length = 4 ∧
      normalize_date s = ⟨g1 ++ '-' :: zfill2 g2 ++ '-' :: zfill2 g3⟩ ∧
      IsIsoDate (normalize_date s)) ∧
    (∀ g1 g2 g3, searchFrom matchSlashPatternAt s.data = none →
      searchFrom matchIsoPatternAt s.data = none →
      searchFrom matchDashPatternAt s.data = some (g1, g2, g3) →
      g1.length ≠ 4 ∧
      normalize_date s =
        (if natOfDigits g1 > 12
         then (⟨g3 ++ '-' :: zfill2 g2 ++ '-' :: zfill2 g1⟩ : String)
         else ⟨g3 ++ '-' :: zfill2 g1 ++ '-' :: zfill2 g2⟩) ∧
      IsIsoDate (normalize_date s)) := by
  refine ⟨?_, ?_, ?_, ?_⟩
  · intro h1 h2 h3
    unfold normalize_date
    rw [h1, h2, h3]
  · intro g1 g2 g3 hs
    obtain ⟨pre, suf, _, hm⟩ := searchFrom_spec matchSlashPatternAt s.data _ hs
    obtain ⟨hlen1, hdig1, hlen2, hdig2, hlen3, hdig3, _, _⟩ :=
      matchSlashPatternAt_spec suf g1 g2 g3 hm
    have hne : g1.length ≠ 4 := by omega
    have heq : normalize_date s = ⟨emitDate g1 g2 g3⟩ := by
      unfold normalize_date
      rw [hs]
    refine ⟨hne, ?_, ?_⟩
    · rw [heq]
      unfold emitDate
      rw [if_neg hne]
      by_cases hv : natOfDigits g1 > 12
      · rw [if_pos hv, if_pos hv]
      · rw [if_neg hv, if_neg hv]
    · rw [heq]
      exact isIsoDate_emit_val g1 g2 g3 hlen1 hdig1 hlen2 hdig2 hlen3 hdig3
  · intro g1 g2 g3 h1 hs
    obtain ⟨pre, suf, _, hm⟩ := searchFrom_spec matchIsoPatternAt s.data _ hs
    obtain ⟨hlen1, hdig1, hlen2, hdig2, hlen3, hdig3, _, _⟩ :=
      matchIsoPatternAt_spec suf g1 g2 g3 hm
    have heq : normalize_date s = ⟨emitDate g1 g2 g3⟩ := by
      unfold normalize_date
      rw [h1, hs]
    refine ⟨hlen1, ?_, ?_⟩
    · rw [heq]
      unfold emitDate
      rw [if_pos hlen1]
    · rw [heq]
      exact isIsoDate_emit_iso g1 g2 g3 hlen1 hdig1 hlen2 hdig2 hlen3 hdig3
  · intro g1 g2 g3 h1 h2 hs
    obtain ⟨pre, suf, _, hm⟩ := searchFrom_spec matchDashPatternAt s.data _ hs
    obtain ⟨hlen1, hdig1, hlen2, hdig2, hlen3, hdig3, _, _⟩ :=
      matchDashPatternAt_spec suf g1 g2 g3 hm
    have hne : g1.length ≠ 4 := by omega
    have heq : normalize_date s = ⟨emitDate g1 g2 g3⟩ := by
      unfold normalize_date
      rw [h1, h2, hs]
    refine ⟨hne, ?_, ?_⟩
    · rw [heq]
      unfold emitDate
      rw [if_neg hne]
      by_cases hv : natOfDigits g1 > 12
      · rw [if_pos hv, if_pos hv]
      · rw [if_neg hv, if_neg hv]
    · rw [heq]
      exact isIsoDate_emit_val g1 g2 g3 hlen1 hdig1 hlen2 hdig2 hlen3 hdig3

/-- Witness for C7: the slash date 01/02/1990 is month-first and
normalizes to 1990-01-02, and an unparseable input passes through
unchanged. -/
theorem C7_normalize_date_cases_witness :
    normalize_date "01/02/1990" = "1990-01-02" ∧ normalize_date "hello" = "hello" := by
  constructor
  · have h := ((C7_normalize_date_cases "01/02/1990").2.1
      ("01".data) ("02".data) ("1990".data) (by decide)).2.1
    rw [h]
    rw [if_neg (by decide)]
    rfl
  · exact (C7_normalize_date_cases "hello").1 (by decide) (by decide) (by decide)

/-- A kept numeric character is never whitespace. -/
theorem keepNumChar_not_space (c : Char) (h : keepNumChar c = true) :
    isPySpace c = false := by
  cases hx : isPySpace c
  · rfl
  · exfalso
    unfold isPySpace at hx
    simp only [Bool.or_eq_true, decide_eq_true_eq] at hx
    rcases hx with ((((h1 | h1) | h1) | h1) | h1) | h1 <;>
      (subst h1; exact absurd h (by decide))

/-- A digit character is never whitespace. -/
theorem digit_not_space (c : Char) (h : c.isDigit = true) :
    isPySpace c = false := by
  cases hx : isPySpace c
  · rfl
  · exfalso
    unfold isPySpace at hx
    simp only [Bool.or_eq_true, decide_eq_true_eq] at hx
    rcases hx with ((((h1 | h1) | h1) | h1) | h1) | h1 <;>
      (subst h1; exact absurd h (by decide))

/-- dropWhile is the identity on lists whose members all fail the
predicate. -/
theorem dropWhile_eq_self_of_all (p : Char → Bool) (cs : List Char)
    (h : ∀ c ∈ cs, p c = false) : cs.dropWhile p = cs := by
  cases cs with
  | nil => rfl
  | cons a t =>
    exact List.dropWhile_cons_of_neg
      (by rw [h a (List.mem_cons_self _ _)]; exact Bool.false_ne_true)

/-- Python strip is the identity on whitespace-free lists. -/
theorem pyStrip_eq_self (cs : List Char) (h : ∀ c ∈ cs, isPySpace c = false) :
    pyStrip cs = cs := by
  unfold pyStrip
  rw [dropWhile_eq_self_of_all _ _ h]
  rw [dropWhile_eq_self_of_all _ _ (fun c hc => h c (List.mem_reverse.mp hc))]
  exact List.reverse_reverse cs

/-- dropWhile is still the identity on any front portion of a
dropWhile fixpoint. -/
theorem dropWhile_fix_extends (p : Char → Bool) (u w : List Char)
    (hu : u.dropWhile p = u) (hpre : ∃ t, w ++ t = u) :
    w.dropWhile p = w := by
  cases w with
  | nil => rfl
  | cons a wt =>
    obtain ⟨t, ht⟩ := hpre
    by_cases hpa : p a
    · exfalso
      rw [← ht, List.cons_append, List.dropWhile_cons_of_pos hpa] at hu
      have hlen := congrArg List.length hu
      have hle := (List.dropWhile_suffix (l := wt ++ t) p).sublist.length_le
      simp at hlen hle
      omega
    · exact List.dropWhile_cons_of_neg hpa

/-- Python strip is idempotent. -/
theorem pyStrip_idem (cs : List Char) : pyStrip (pyStrip cs) = pyStrip cs := by
  unfold pyStrip
  have hA : (cs.dropWhile isPySpace).dropWhile isPySpace = cs.dropWhile isPySpace :=
    List.dropWhile_idempotent _ _
  obtain ⟨t, ht⟩ := List.dropWhile_suffix (l := (cs.dropWhile isPySpace).reverse) isPySpace
  have hpre : ∃ t2,
      ((cs.dropWhile isPySpace).reverse.dropWhile isPySpace).reverse ++ t2 =
        cs.dropWhile isPySpace := by
    have h2 := congrArg List.reverse ht
    rw [List.reverse_append, List.reverse_reverse] at h2
    exact ⟨t.reverse, h2⟩
  have hB := dropWhile_fix_extends isPySpace _ _ hA hpre
  rw [hB, List.reverse_reverse, List.dropWhile_idempotent]

/-- zfill(2) is the identity on two-character groups. -/
theorem zfill2_of_length_two (g : List Char) (h : g.length = 2) :
    zfill2 g = g := by
  unfold zfill2
  rw [if_pos (by omega)]

/-- The slash pattern can only match a suffix containing a slash. -/
theorem searchSlash_none_of_no_slash (cs : List Char) (h : '/' ∉ cs) :
    searchFrom matchSlashPatternAt cs = none := by
  cases hs : searchFrom matchSlashPatternAt cs with
  | none => rfl
  | some v =>
    exfalso
    obtain ⟨g1, g2, g3⟩ := v
    obtain ⟨pre, suf, happ, hm⟩ := searchFrom_spec matchSlashPatternAt cs _ hs
    obtain ⟨_, _, _, _, _, _, r, hdec⟩ := matchSlashPatternAt_spec suf g1 g2 g3 hm
    apply h
    rw [happ, hdec]
    exact List.mem_append.mpr (Or.inr (List.mem_append.mpr (Or.inl
      (List.mem_append.mpr (Or.inl (List.mem_append.mpr
        (Or.inr (List.mem_cons_self _ _))))))))

/-- The ISO pattern matches a canonical date at its start and captures
exactly the year, month and day groups. -/
theorem matchIsoPatternAt_canonical (y m d : List Char)
    (hy : y.length = 4) (hdy : ∀ c ∈ y, c.isDigit = true)
    (hm : m.length = 2) (hdm : ∀ c ∈ m, c.isDigit = true)
    (hd : d.length = 2) (hdd : ∀ c ∈ d, c.isDigit = true) :
    matchIsoPatternAt ((y ++ '-' :: m) ++ '-' :: d) = some (y, m, d) := by
  have h4 : takeExactDigits 4 ((y ++ '-' :: m) ++ '-' :: d) =
      some (y, '-' :: (m ++ '-' :: d)) := by
    rw [List.append_assoc, List.cons_append, ← hy]
    exact takeExactDigits_append y ('-' :: (m ++ '-' :: d)) hdy
  have h2m : takeExactDigits 2 (m ++ '-' :: d) = some (m, '-' :: d) := by
    rw [← hm]
    exact takeExactDigits_append m ('-' :: d) hdm
  have h2d : takeExactDigits 2 d = some (d, []) := by
    have h0 := takeExactDigits_append d [] hdd
    rw [List.append_nil, hd] at h0
    exact h0
  unfold matchIsoPatternAt greedy12
  rw [h4]
  dsimp only
  rw [show expectChar '-' ('-' :: (m ++ '-' :: d)) = some (m ++ '-' :: d) from rfl]
  dsimp only
  rw [h2m]
  dsimp only
  rw [show expectChar '-' ('-' :: d) = some d from rfl]
  dsimp only
  rw [h2d]
  rfl

/-- Renormalizing a canonical YYYY-MM-DD date is the identity. -/
theorem normalize_date_canonical (y m d : List Char)
    (hy : y.length = 4) (hdy : ∀ c ∈ y, c.isDigit = true)
    (hm : m.length = 2) (hdm : ∀ c ∈ m, c.isDigit = true)
    (hd : d.length = 2) (hdd : ∀ c ∈ d, c.isDigit = true) :
    normalize_date ⟨(y ++ '-' :: m) ++ '-' :: d⟩ = ⟨(y ++ '-' :: m) ++ '-' :: d⟩ := by
  have hchars : ∀ c ∈ (y ++ '-' :: m) ++ '-' :: d, c = '-' ∨ c.isDigit = true := by
    intro c hc
    rcases List.mem_append.mp hc with hc | hc
    · rcases List.mem_append.mp hc with hc | hc
      · exact Or.inr (hdy c hc)
      · rcases List.mem_cons.mp hc with hc | hc
        · exact Or.inl hc
        · exact Or.inr (hdm c hc)
    · rcases List.mem_cons.mp hc with hc | hc
      · exact Or.inl hc
      · exact Or.inr (hdd c hc)
  have hnoslash : '/' ∉ (y ++ '-' :: m) ++ '-' :: d := by
    intro hmem
    rcases hchars '/' hmem with hc | hc
    · exact absurd hc (by decide)
    · exact absurd hc (by decide)
  have hs1 : searchFrom matchSlashPatternAt ((y ++ '-' :: m) ++ '-' :: d) = none :=
    searchSlash_none_of_no_slash _ hnoslash
  have hs2 : searchFrom matchIsoPatternAt ((y ++ '-' :: m) ++ '-' :: d) = some (y, m, d) := by
    cases y with
    | nil => simp at hy
    | cons c yt =>
      show searchFrom matchIsoPatternAt (c :: ((yt ++ '-' :: m) ++ '-' :: d)) =
        some (c :: yt, m, d)
      unfold searchFrom
      rw [show matchIsoPatternAt (c :: ((yt ++ '-' :: m) ++ '-' :: d)) = some (c :: yt, m, d) from
        matchIsoPatternAt_canonical (c :: yt) m d hy hdy hm hdm hd hdd]
      rw [Option.some_orElse]
  unfold normalize_date
  rw [show (String.mk ((y ++ '-' :: m) ++ '-' :: d)).data = (y ++ '-' :: m) ++ '-' :: d from rfl]
  rw [hs1, hs2]
  dsimp only
  unfold emitDate
  rw [if_pos hy, zfill2_of_length_two m hm, zfill2_of_length_two d hd]

/-- Reduction of _normalize_value on a nonempty value of type
currency. -/
theorem normalize_value_currency (v : String) (hv : v ≠ "") :
    normalize_value v "currency" = ⟨(pyStrip v.data).filter keepNumChar⟩ := by
  unfold normalize_value
  rw [if_neg hv]
  rfl

/-- Reduction of _normalize_value on a nonempty value of type number. -/
theorem normalize_value_number (v : String) (hv : v ≠ "") :
    normalize_value v "number" = ⟨(pyStrip v.data).filter keepNumChar⟩ := by
  unfold normalize_value
  rw [if_neg hv]
  rfl

/-- Reduction of _normalize_value on a nonempty value of type date. -/
theorem normalize_value_date (v : String) (hv : v ≠ "") :
    normalize_value v "date" = normalize_date ⟨pyStrip v.data⟩ := by
  unfold normalize_value
  rw [if_neg hv]
  rfl

/-- A canonically shaped date string is a fixpoint of date
normalization. -/
theorem normalize_value_date_fix (s : String) (h : IsIsoDate s) :
    normalize_value s "date" = s := by
  obtain ⟨sdata⟩ := s
  obtain ⟨y, m, d, hdata, hy, hm, hd, hdy, hdm, hdd⟩ := h
  have hdata2 : sdata = (y ++ '-' :: m) ++ '-' :: d := hdata
  subst hdata2
  have hne : (⟨(y ++ '-' :: m) ++ '-' :: d⟩ : String) ≠ "" := by
    intro he
    have hlen := congrArg (fun s : String => s.data.length) he
    simp at hlen
  rw [normalize_value_date _ hne]
  have hnos : ∀ c ∈ (y ++ '-' :: m) ++ '-' :: d, isPySpace c = false := by
    intro c hc
    rcases List.mem_append.mp hc with hc | hc
    · rcases List.mem_append.mp hc with hc | hc
      · exact digit_not_space c (hdy c hc)
      · rcases List.mem_cons.mp hc with hc | hc
        · rw [hc]
          rfl
        · exact digit_not_space c (hdm c hc)
    · rcases List.mem_cons.mp hc with hc | hc
      · rw [hc]
        rfl
      · exact digit_not_space c (hdd c hc)
  have hstrip : pyStrip ((⟨(y ++ '-' :: m) ++ '-' :: d⟩ : String).data) =
      (y ++ '-' :: m) ++ '-' :: d := pyStrip_eq_self _ hnos
  rw [hstrip]
  exact normalize_date_canonical y m d hy hdy hm hdm hd hdd

/-- Claim C9: normalization is idempotent for the date, currency and
number types. -/
theorem C9_normalize_idempotent (v t : String)
    (h : t = "date" ∨ t = "currency" ∨ t = "number") :
    normalize_value (normalize_value v t) t = normalize_value v t := by
  rcases h with ht | ht | ht <;> subst ht
  · by_cases hv : v = ""
    · subst hv
      rfl
    · rw [normalize_value_date v hv]
      cases h1 : searchFrom matchSlashPatternAt (⟨pyStrip v.data⟩ : String).data with
      | some g =>
        obtain ⟨g1, g2, g3⟩ := g
        obtain ⟨pre, suf, happ, hmm2⟩ := searchFrom_spec _ _ _ h1
        obtain ⟨hlen1, hdig1, hlen2, hdig2, hlen3, hdig3, _, _⟩ :=
          matchSlashPatternAt_spec suf g1 g2 g3 hmm2
        have heq : normalize_date ⟨pyStrip v.data⟩ = ⟨emitDate g1 g2 g3⟩ := by
          unfold normalize_date
          rw [h1]
        rw [heq]
        exact normalize_value_date_fix _
          (isIsoDate_emit_val g1 g2 g3 hlen1 hdig1 hlen2 hdig2 hlen3 hdig3)
      | none =>
        cases h2 : searchFrom matchIsoPatternAt (⟨pyStrip v.data⟩ : String).data with
        | some g =>
          obtain ⟨g1, g2, g3⟩ := g
          obtain ⟨pre, suf, happ, hmm2⟩ := searchFrom_spec _ _ _ h2
          obtain ⟨hlen1, hdig1, hlen2, hdig2, hlen3, hdig3, _, _⟩ :=
            matchIsoPatternAt_spec suf g1 g2 g3 hmm2
          have heq : normalize_date ⟨pyStrip v.data⟩ = ⟨emitDate g1 g2 g3⟩ := by
            unfold normalize_date
            rw [h1, h2]
          rw [heq]
          exact normalize_value_date_fix _
            (isIsoDate_emit_iso g1 g2 g3 hlen1 hdig1 hlen2 hdig2 hlen3 hdig3)
        | none =>
          cases h3 : searchFrom matchDashPatternAt (⟨pyStrip v.data⟩ : String).data with
          | some g =>
            obtain ⟨g1, g2, g3⟩ := g
            obtain ⟨pre, suf, happ, hmm2⟩ := searchFrom_spec _ _ _ h3
            obtain ⟨hlen1, hdig1, hlen2, hdig2, hlen3, hdig3, _, _⟩ :=
              matchDashPatternAt_spec suf g1 g2 g3 hmm2
            have heq : normalize_date ⟨pyStrip v.data⟩ = ⟨emitDate g1 g2 g3⟩ := by
              unfold normalize_date
              rw [h1, h2, h3]
            rw [heq]
            exact normalize_value_date_fix _
              (isIsoDate_emit_val g1 g2 g3 hlen1 hdig1 hlen2 hdig2 hlen3 hdig3)
          | none =>
            have heq : normalize_date ⟨pyStrip v.data⟩ = ⟨pyStrip v.data⟩ := by
              unfold normalize_date
              rw [h1, h2, h3]
            rw [heq]
            by_cases hs0e : (⟨pyStrip v.data⟩ : String) = ""
            · rw [hs0e]
              rfl
            · rw [normalize_value_date _ hs0e]
              rw [show (⟨pyStrip v.data⟩ : String).data = pyStrip v.data from rfl]
              rw [pyStrip_idem]
              exact heq
  · by_cases hv : v = ""
    · subst hv
      rfl
    · rw [normalize_value_currency v hv]
      by_cases hce : (⟨(pyStrip v.data).filter keepNumChar⟩ : String) = ""
      · rw [hce]
        rfl
      · rw [normalize_value_currency _ hce]
        show (⟨(pyStrip ((pyStrip v.data).filter keepNumChar)).filter keepNumChar⟩ : String) = _
        rw [pyStrip_eq_self _ (fun c hc => keepNumChar_not_space c (List.mem_filter.mp hc).2)]
        rw [List.filter_eq_self.mpr (fun a ha => (List.mem_filter.mp ha).2)]
  · by_cases hv : v = ""
    · subst hv
      rfl
    · rw [normalize_value_number v hv]
      by_cases hce : (⟨(pyStrip v.data).filter keepNumChar⟩ : String) = ""
      · rw [hce]
        rfl
      · rw [normalize_value_number _ hce]
        show (⟨(pyStrip ((pyStrip v.data).filter keepNumChar)).filter keepNumChar⟩ : String) = _
        rw [pyStrip_eq_self _ (fun c hc => keepNumChar_not_space c (List.mem_filter.mp hc).2)]
        rw [List.filter_eq_self.mpr (fun a ha => (List.mem_filter.mp ha).2)]

/-- Witness for C9: renormalizing the normalized forms of a slash date,
a currency amount and a number changes nothing. -/
theorem C9_normalize_idempotent_witness :
    normalize_value (normalize_value "01/02/1990" "date") "date" =
      normalize_value "01/02/1990" "date" ∧
    normalize_value (normalize_value " $52,000.00 " "currency") "currency" =
      normalize_value " $52,000.00 " "currency" ∧
    normalize_value (normalize_value " 1,234 " "number") "number" =
      normalize_value " 1,234 " "number" :=
  ⟨C9_normalize_idempotent "01/02/1990" "date" (Or.inl rfl),
   C9_normalize_idempotent " $52,000.00 " "currency" (Or.inr (Or.inl rfl)),
   C9_normalize_idempotent " 1,234 " "number" (Or.inr (Or.inr rfl))⟩
